import Mathlib

/-!
Verification of the data-reshaping, store and merge/filter logic of the
commodity-price dashboard (src/app.py) against its specification.

The shallow embedding models:
* a spreadsheet cell as missing, a numeric value, or a non-numeric value
  (mirroring what pandas dropna and to_numeric with coercion distinguish);
* a wide-format monthly sheet as metadata columns plus one cell per date
  column (load_daily_data, lines 21-43);
* the user-input CSV store as an optional list of file rows
  (load_input_data and append_input_row, lines 46-59);
* the merge and filter engine as list concatenation and filtering
  (main, lines 113, 122-126, 157-163);
* the reference loader as dropna plus first-seen deduplication
  (load_choice, lines 12-18).

Dates are modelled as integers (day numbers); a timestamp in the CSV store
carries a day and a time-of-day component so that normalisation to
calendar-date granularity is visible.  Prices are rationals.
-/

namespace TrenHarga

/-- A spreadsheet cell for a price: absent, numeric, or non-numeric text.
pandas dropna removes `missing`; to_numeric with coercion turns `nonnum`
into NaN (that is, `missing`). -/
inductive Cell where
  | missing
  | num (q : ℚ)
  | nonnum
deriving DecidableEq

/-- Whether a cell holds a value that coerces to a number. -/
def Cell.isNum : Cell → Bool
  | num _ => true
  | _ => false

/-- The numeric value of a cell (0 on the unreachable non-numeric cases;
the loader only reads this field after dropping non-numeric rows). -/
def Cell.value : Cell → ℚ
  | num q => q
  | _ => 0

/-- One entity row of a wide-format monthly sheet: the four metadata
columns `" "`, `Komoditi`, `Tingkat`, `Prov/Kab/Kota`, and one cell per
date column. -/
structure WideRow where
  sumber : String
  komoditi : String
  tingkat : String
  prov_kab_kota : String
  cells : List Cell
deriving DecidableEq

/-- A wide-format monthly sheet: date-column headers (calendar dates) and
entity rows. -/
structure WideSheet where
  dateCols : List ℤ
  rows : List WideRow
deriving DecidableEq

/-- One row of the melted (long-format) frame, before numeric cleaning and
renaming: metadata plus the `Tanggal` and `Harga` columns produced by melt. -/
structure MeltRow where
  sumber : String
  komoditi : String
  tingkat : String
  prov_kab_kota : String
  tanggal : ℤ
  harga : Cell
deriving DecidableEq

/-- A canonical price observation: one row of the historical dataset, the
user dataset or the combined view (columns Sumber, Komoditi, Tingkat,
Provinsi, Tanggal, Harga). -/
structure Obs where
  sumber : String
  komoditi : String
  tingkat : String
  provinsi : String
  tanggal : ℤ
  harga : ℚ
deriving DecidableEq

/-- `df[base_cols + date_cols].melt(id_vars=base_cols, var_name="Tanggal",
value_name="Harga")`: for each date column in order, one output row per
entity row, holding that entity and that column's cell. -/
def meltSheet (s : WideSheet) : List MeltRow :=
  s.dateCols.enum.flatMap fun jd =>
    s.rows.map fun r =>
      { sumber := r.sumber, komoditi := r.komoditi, tingkat := r.tingkat,
        prov_kab_kota := r.prov_kab_kota, tanggal := jd.2,
        harga := r.cells.getD jd.1 Cell.missing }

/-- `out.dropna(subset=["Harga"])`: drop rows whose price cell is absent. -/
def dropna_harga (l : List MeltRow) : List MeltRow :=
  l.filter fun r =>
    match r.harga with
    | Cell.missing => false
    | _ => true

/-- `pd.to_numeric(cell, errors="coerce")`: numeric values survive,
everything else becomes NaN (missing). -/
def to_numeric : Cell → Cell
  | Cell.num q => Cell.num q
  | _ => Cell.missing

/-- `out["Harga"] = pd.to_numeric(out["Harga"], errors="coerce")` applied
to every row. -/
def coerce_harga (l : List MeltRow) : List MeltRow :=
  l.map fun r => { r with harga := to_numeric r.harga }

/-- The final rename and date normalisation: `" "` becomes `Sumber`,
`Prov/Kab/Kota` becomes `Provinsi`, and the date header value (already a
calendar date) is kept.  The price cell is read as its numeric value. -/
def finalize (l : List MeltRow) : List Obs :=
  l.map fun r =>
    { sumber := r.sumber, komoditi := r.komoditi, tingkat := r.tingkat,
      provinsi := r.prov_kab_kota, tanggal := r.tanggal,
      harga := r.harga.value }

/-- `load_daily_data` (lines 21-43): melt every sheet, concatenate, drop
absent prices, coerce prices to numeric, drop the coercion failures, then
rename columns and normalise dates. -/
def load_daily_data (sheets : List WideSheet) : List Obs :=
  finalize (dropna_harga (coerce_harga (dropna_harga
    ((sheets.map meltSheet).flatten))))

/-- A timestamp as parsed from the CSV by read_csv with parse_dates: a
calendar day plus a time-of-day component (0 for a plain date). -/
structure Timestamp where
  day : ℤ
  tod : ℕ
deriving DecidableEq

/-- `.dt.date`: normalise a timestamp to calendar-date granularity. -/
def Timestamp.date (t : Timestamp) : ℤ := t.day

/-- One row of the backing CSV file, as parsed with parse_dates on the
Tanggal column. -/
structure FileRow where
  sumber : String
  komoditi : String
  tingkat : String
  provinsi : String
  tanggal : Timestamp
  harga : ℚ
deriving DecidableEq

/-- The canonical column schema of the user-input store. -/
def canonical_columns : List String :=
  ["Sumber", "Komoditi", "Tingkat", "Provinsi", "Tanggal", "Harga"]

/-- A tabular result: the column labels and the rows. -/
structure Table where
  columns : List String
  rows : List Obs
deriving DecidableEq

/-- `df["Tanggal"] = df["Tanggal"].dt.date` applied to one parsed row. -/
def parse_row (fr : FileRow) : Obs :=
  { sumber := fr.sumber, komoditi := fr.komoditi, tingkat := fr.tingkat,
    provinsi := fr.provinsi, tanggal := fr.tanggal.date, harga := fr.harga }

/-- `load_input_data` (lines 46-53): if the backing file exists, parse it
and normalise the date column; otherwise return an empty table with the
canonical six columns.  The backing file is `none` when absent and
`some rows` when present (its header is the canonical schema, which is
what this store ever writes). -/
def load_input_data (file : Option (List FileRow)) : Table :=
  match file with
  | some frs => { columns := canonical_columns, rows := frs.map parse_row }
  | none => { columns := canonical_columns, rows := [] }

/-- `df.to_csv` writes an observation back to the file; its date is
written as a plain calendar date (midnight timestamp on re-parse). -/
def write_row (o : Obs) : FileRow :=
  { sumber := o.sumber, komoditi := o.komoditi, tingkat := o.tingkat,
    provinsi := o.provinsi, tanggal := { day := o.tanggal, tod := 0 },
    harga := o.harga }

/-- `append_input_row` (lines 56-59): read the full current contents, add
the new row at the end, rewrite the whole backing file. -/
def append_input_row (row : Obs) (file : Option (List FileRow)) :
    Option (List FileRow) :=
  some (((load_input_data file).rows ++ [row]).map write_row)

/-- `pd.concat([daily_data, input_data], ignore_index=True)` (lines 113
and 131): the combined view is the plain concatenation of the historical
and user datasets. -/
def combine_view (daily_data input_data : List Obs) : List Obs :=
  daily_data ++ input_data

/-- The category filter of the tabular tab (lines 122-126):
`combined["Komoditi"].isin(kom_filter) & combined["Tingkat"].isin(ting_filter)
& combined["Provinsi"].isin(prov_filter)`. -/
def filter_category (combined : List Obs)
    (kom_filter ting_filter prov_filter : List String) : List Obs :=
  combined.filter fun r =>
    kom_filter.contains r.komoditi && ting_filter.contains r.tingkat
      && prov_filter.contains r.provinsi

/-- The chart filter (lines 157-163): the category conjunction plus
`(combined["Tanggal"] >= start_date) & (combined["Tanggal"] <= end_date)`. -/
def filter_tren (combined : List Obs)
    (kom_plot ting_plot prov_plot : List String)
    (start_date end_date : ℤ) : List Obs :=
  combined.filter fun r =>
    kom_plot.contains r.komoditi && ting_plot.contains r.tingkat
      && prov_plot.contains r.provinsi
      && decide (start_date ≤ r.tanggal) && decide (r.tanggal ≤ end_date)

/-- Python `str.strip()`: remove leading and trailing whitespace. -/
def strip (s : String) : String :=
  String.mk (((s.data.dropWhile Char.isWhitespace).reverse.dropWhile
    Char.isWhitespace).reverse)

/-- The row dict built on form submit (lines 96-104): the free-text
source is stripped, the pickers and the date are taken as selected, and
the price is the numeric form value. -/
def form_row (sumber_val komoditi_val tingkat_val provinsi_val : String)
    (tanggal_val : ℤ) (harga_val : ℚ) : Obs :=
  { sumber := strip sumber_val, komoditi := komoditi_val,
    tingkat := tingkat_val, provinsi := provinsi_val,
    tanggal := tanggal_val, harga := harga_val }

/-- pandas `Series.unique()` order: keep the first occurrence of each
value, in first-seen order. -/
def unique_first_seen : List String → List String
  | [] => []
  | x :: xs => x :: unique_first_seen (xs.filter fun y => decide (y ≠ x))
termination_by l => l.length
decreasing_by
  simp only [List.length_cons]
  have := List.length_filter_le (fun y => decide (y ≠ x)) xs
  omega

/-- `df[c].dropna().astype(str).unique().tolist()` for one column of the
choice sheet: drop the missing entries, then deduplicate first-seen. -/
def dropna_unique (col : List (Option String)) : List String :=
  unique_first_seen (col.filterMap id)

/-- The `choice` sheet: the three columns `komoditi`, `tingkatan`,
`Provinsi`, each a list of possibly-missing string values. -/
structure ChoiceSheet where
  komoditi : List (Option String)
  tingkatan : List (Option String)
  provinsi : List (Option String)

/-- `load_choice` (lines 12-18): the three reference lists. -/
def load_choice (sheet : ChoiceSheet) :
    List String × List String × List String :=
  (dropna_unique sheet.komoditi, dropna_unique sheet.tingkatan,
    dropna_unique sheet.provinsi)

/-- What claim C9 asks of one reference list: missing values dropped,
every value exactly once, order as first occurrence in the cleaned
source column. -/
def DedupSpec (col : List (Option String)) (out : List String) : Prop :=
  out.Nodup
  ∧ (∀ a : String, a ∈ out ↔ a ∈ col.filterMap id)
  ∧ out.Pairwise fun a b =>
      (col.filterMap id).indexOf a < (col.filterMap id).indexOf b

/-- A concrete observation used by the witnesses. -/
def obs1 : Obs :=
  { sumber := "SP2KP", komoditi := "Beras", tingkat := "Eceran",
    provinsi := "Kalimantan Barat", tanggal := 20514, harga := 15000 }

/-- A one-entity, one-date sheet whose single price cell is negative. -/
def neg_sheet : WideSheet :=
  { dateCols := [20454],
    rows := [{ sumber := "Pasar Flamboyan", komoditi := "Beras",
               tingkat := "Eceran", prov_kab_kota := "Kalimantan Barat",
               cells := [Cell.num (-100)] }] }

/-- The combined-view row the negative sheet produces. -/
def obs_neg : Obs :=
  { sumber := "Pasar Flamboyan", komoditi := "Beras", tingkat := "Eceran",
    provinsi := "Kalimantan Barat", tanggal := 20454, harga := -100 }

lemma clean_eq_filter (l : List MeltRow) :
    finalize (dropna_harga (coerce_harga (dropna_harga l)))
      = (l.filter fun r => r.harga.isNum).map fun r =>
          { sumber := r.sumber, komoditi := r.komoditi, tingkat := r.tingkat,
            provinsi := r.prov_kab_kota, tanggal := r.tanggal,
            harga := r.harga.value } := by
  induction l with
  | nil => rfl
  | cons r l ih =>
    cases h : r.harga <;>
      simp [dropna_harga, coerce_harga, finalize, to_numeric, Cell.isNum, h,
        List.filter_cons] at ih ⊢ <;>
      simpa [dropna_harga, coerce_harga, finalize] using ih

lemma meltSheet_length (s : WideSheet) :
    (meltSheet s).length = s.rows.length * s.dateCols.length := by
  simp only [meltSheet, List.flatMap]
  rw [List.length_flatten, List.map_map]
  simp only [Function.comp_def, List.length_map]
  rw [List.map_const', List.sum_replicate, smul_eq_mul, List.enum_length,
    Nat.mul_comm]

/-- Claim C1: for every wide-format sheet, the melted long table has
(entity rows) times (date columns) rows before price cleaning; cleaning
keeps exactly the rows whose price cell is present and numeric; and a
sheet with zero date columns melts to zero rows. -/
theorem reshape_count_and_filter (s : WideSheet) :
    (meltSheet s).length = s.rows.length * s.dateCols.length
    ∧ load_daily_data [s]
        = ((meltSheet s).filter fun r => r.harga.isNum).map (fun r =>
            { sumber := r.sumber, komoditi := r.komoditi,
              tingkat := r.tingkat, provinsi := r.prov_kab_kota,
              tanggal := r.tanggal, harga := r.harga.value })
    ∧ ∀ rows : List WideRow, meltSheet { dateCols := [], rows := rows } = [] := by
  refine ⟨meltSheet_length s, ?_, ?_⟩
  · have : (([s].map meltSheet).flatten) = meltSheet s := by simp
    rw [load_daily_data, this, clean_eq_filter]
  · intro rows
    rfl

lemma parse_write (o : Obs) : parse_row (write_row o) = o := rfl

lemma read_append (file : Option (List FileRow)) (row : Obs) :
    (load_input_data (append_input_row row file)).rows
      = (load_input_data file).rows ++ [row] := by
  simp [append_input_row, load_input_data, List.map_map,
    Function.comp_def, parse_write]

/-- Claim C2: appending a row and then reading returns the previous rows
unchanged, followed by exactly the appended row: the last row is the
appended one, the row count grows by one, and the prefix is the previous
table. -/
theorem append_then_read (file : Option (List FileRow)) (row : Obs) :
    (load_input_data (append_input_row row file)).rows
        = (load_input_data file).rows ++ [row]
    ∧ (load_input_data (append_input_row row file)).rows.getLast?
        = some row
    ∧ (load_input_data (append_input_row row file)).rows.length
        = (load_input_data file).rows.length + 1
    ∧ (load_input_data (append_input_row row file)).rows.take
        (load_input_data file).rows.length
        = (load_input_data file).rows := by
  refine ⟨read_append file row, ?_, ?_, ?_⟩ <;> rw [read_append file row]
  · exact List.getLast?_concat _
  · simp
  · exact List.take_left _ _

/-- Claim C8: reading a missing backing file gives an empty table with
exactly the canonical six-column schema; reading an existing file returns
one row per stored row, in order, with every field preserved and the date
normalised to its calendar day. -/
theorem load_input_data_spec :
    (load_input_data none).columns = canonical_columns
    ∧ (load_input_data none).rows = []
    ∧ (∀ frs : List FileRow,
        (load_input_data (some frs)).columns = canonical_columns
        ∧ (load_input_data (some frs)).rows.length = frs.length
        ∧ ∀ i : ℕ, (load_input_data (some frs)).rows.get? i
            = (frs.get? i).map parse_row)
    ∧ ∀ fr : FileRow,
        (parse_row fr).sumber = fr.sumber
        ∧ (parse_row fr).komoditi = fr.komoditi
        ∧ (parse_row fr).tingkat = fr.tingkat
        ∧ (parse_row fr).provinsi = fr.provinsi
        ∧ (parse_row fr).tanggal = fr.tanggal.day
        ∧ (parse_row fr).harga = fr.harga := by
  refine ⟨rfl, rfl, ?_, ?_⟩
  · intro frs
    refine ⟨rfl, by simp [load_input_data], ?_⟩
    intro i
    simp [load_input_data, List.get?_map]
  · intro fr
    exact ⟨rfl, rfl, rfl, rfl, rfl, rfl⟩

/-- Claim C3: the combined view holds every row of each source with its
exact multiplicity: no deduplication and no dropping, so the row count is
the sum of the two row counts. -/
theorem combine_view_concat (H U : List Obs) :
    (combine_view H U).length = H.length + U.length
    ∧ (∀ r : Obs, (combine_view H U).count r = H.count r + U.count r)
    ∧ ∀ r : Obs, r ∈ combine_view H U ↔ r ∈ H ∨ r ∈ U := by
  refine ⟨by simp [combine_view], ?_, ?_⟩
  · intro r
    simp [combine_view, List.count_append]
  · intro r
    simp [combine_view, List.mem_append]

/-- Claim C4: when the selected set on any one of the three category axes
is empty, the category filter returns zero rows, whatever the other axes
hold. -/
theorem empty_selection_filter (combined : List Obs)
    (kom_filter ting_filter prov_filter : List String)
    (h : kom_filter = [] ∨ ting_filter = [] ∨ prov_filter = []) :
    filter_category combined kom_filter ting_filter prov_filter = [] := by
  rcases h with h | h | h <;> subst h <;>
    simp [filter_category]

/-- Witness for claim C4 at a concrete store and an empty commodity
selection. -/
theorem empty_selection_filter_witness :
    filter_category [obs1] [] ["Eceran"] ["Kalimantan Barat"] = [] :=
  empty_selection_filter [obs1] [] ["Eceran"] ["Kalimantan Barat"]
    (Or.inl rfl)

/-- Claim C5: the date filter is inclusive at both ends: a row dated
exactly at the start or at the end of the range is kept (when it passes
the category filters), and a row dated strictly outside the range is
always excluded. -/
theorem date_range_inclusive (combined : List Obs)
    (kom_plot ting_plot prov_plot : List String)
    (start_date end_date : ℤ) (r : Obs) (hr : r ∈ combined)
    (hk : kom_plot.contains r.komoditi = true)
    (ht : ting_plot.contains r.tingkat = true)
    (hp : prov_plot.contains r.provinsi = true)
    (hse : start_date ≤ end_date) :
    ((r.tanggal = start_date ∨ r.tanggal = end_date) →
        r ∈ filter_tren combined kom_plot ting_plot prov_plot
              start_date end_date)
    ∧ ((r.tanggal < start_date ∨ end_date < r.tanggal) →
        r ∉ filter_tren combined kom_plot ting_plot prov_plot
              start_date end_date) := by
  constructor
  · intro hd
    apply List.mem_filter.2
    refine ⟨hr, ?_⟩
    have hk2 : r.komoditi ∈ kom_plot := by simpa using hk
    have ht2 : r.tingkat ∈ ting_plot := by simpa using ht
    have hp2 : r.provinsi ∈ prov_plot := by simpa using hp
    rcases hd with hd | hd <;>
      simp [hk2, ht2, hp2, hd, hse, le_refl]
  · intro hd hmem
    have h2 := (List.mem_filter.1 hmem).2
    simp only [Bool.and_eq_true, decide_eq_true_eq] at h2
    rcases hd with hd | hd
    · exact absurd h2.1.2 (not_le.2 hd)
    · exact absurd h2.2 (not_le.2 hd)

/-- Witness for claim C5: a row dated exactly at the start of the range
is kept, and the same row is excluded once the range moves past it. -/
theorem date_range_inclusive_witness :
    ((obs1.tanggal = 20514 ∨ obs1.tanggal = 20520) →
        obs1 ∈ filter_tren [obs1] ["Beras"] ["Eceran"] ["Kalimantan Barat"]
              20514 20520)
    ∧ ((obs1.tanggal < 20514 ∨ 20520 < obs1.tanggal) →
        obs1 ∉ filter_tren [obs1] ["Beras"] ["Eceran"] ["Kalimantan Barat"]
              20514 20520) :=
  date_range_inclusive [obs1] ["Beras"] ["Eceran"] ["Kalimantan Barat"]
    20514 20520 obs1 (by simp) (by simp [obs1]) (by simp [obs1])
    (by simp [obs1]) (by decide)

/-- Claim C6 as stated is false on the code: a negative price in a source
sheet survives the historical load into the combined view, because the
loader only coerces prices to numbers and never checks their sign. -/
theorem combined_nonneg_cex :
    ¬ ∀ r ∈ combine_view (load_daily_data [neg_sheet]) [], 0 ≤ r.harga := by
  intro h
  have he : combine_view (load_daily_data [neg_sheet]) [] = [obs_neg] := by
    rfl
  have hmem : obs_neg ∈ combine_view (load_daily_data [neg_sheet]) [] := by
    rw [he]
    exact List.mem_singleton_self _
  have hle := h obs_neg hmem
  norm_num [obs_neg] at hle

/-- Claim C6 (amended): every row of the combined view comes from the
historical dataset or from the user dataset; rows appended through the
input form have a non-negative price because the price widget enforces a
minimum of 0, but historical prices are only coerced to numbers, never
sign-checked, so a negative price in the source sheet survives. -/
theorem combine_schema_amended (H U : List Obs)
    (hU : ∀ r ∈ U, ∃ s k t p : String, ∃ d : ℤ, ∃ hv : ℚ,
        0 ≤ hv ∧ r = form_row s k t p d hv) :
    ∀ r ∈ combine_view H U, r ∈ H ∨ 0 ≤ r.harga := by
  intro r hr
  rcases List.mem_append.1 hr with h | h
  · exact Or.inl h
  · rcases hU r h with ⟨s, k, t, p, d, hv, hpos, rfl⟩
    right
    simpa [form_row] using hpos

/-- Witness for the amended claim C6: in a combined view of one
historical row and one form-entered row, the form-entered row is either
historical or has a non-negative price. -/
theorem combine_schema_amended_witness :
    form_row " SP2KP " "Beras" "Eceran" "Kalimantan Barat" 20514 15000
        ∈ [obs_neg]
    ∨ 0 ≤ (form_row " SP2KP " "Beras" "Eceran" "Kalimantan Barat"
        20514 15000).harga :=
  combine_schema_amended [obs_neg]
    [form_row " SP2KP " "Beras" "Eceran" "Kalimantan Barat" 20514 15000]
    (by
      intro r hr
      have hr2 := List.mem_singleton.1 hr
      subst hr2
      exact ⟨" SP2KP ", "Beras", "Eceran", "Kalimantan Barat", 20514, 15000,
        by norm_num, rfl⟩)
    (form_row " SP2KP " "Beras" "Eceran" "Kalimantan Barat" 20514 15000)
    (List.mem_append.2 (Or.inr (List.mem_singleton_self _)))

lemma mem_unique_first_seen : ∀ (l : List String) (a : String),
    a ∈ unique_first_seen l ↔ a ∈ l := by
  intro l
  induction l using unique_first_seen.induct with
  | case1 =>
    intro a
    simp [unique_first_seen]
  | case2 x xs ih =>
    intro a
    rw [show unique_first_seen (x :: xs)
        = x :: unique_first_seen (xs.filter fun y => decide (y ≠ x)) from by
      simp [unique_first_seen]]
    constructor
    · intro h
      rcases List.mem_cons.1 h with h | h
      · exact h ▸ List.mem_cons_self x xs
      · have := ((ih a).1 h)
        exact List.mem_cons_of_mem x (List.mem_of_mem_filter this)
    · intro h
      rcases List.mem_cons.1 h with h | h
      · exact h ▸ List.mem_cons_self _ _
      · by_cases hax : a = x
        · exact hax ▸ List.mem_cons_self _ _
        · refine List.mem_cons_of_mem x ((ih a).2 ?_)
          exact List.mem_filter.2 ⟨h, by simpa using hax⟩

lemma nodup_unique_first_seen : ∀ l : List String,
    (unique_first_seen l).Nodup := by
  intro l
  induction l using unique_first_seen.induct with
  | case1 => simp [unique_first_seen]
  | case2 x xs ih =>
    rw [show unique_first_seen (x :: xs)
        = x :: unique_first_seen (xs.filter fun y => decide (y ≠ x)) from by
      simp [unique_first_seen]]
    refine List.nodup_cons.2 ⟨?_, ih⟩
    intro hmem
    have := List.of_mem_filter ((mem_unique_first_seen _ x).1 hmem)
    simp at this

lemma indexOf_cons_self_eq (x : String) (xs : List String) :
    (x :: xs).indexOf x = 0 := by
  rw [List.indexOf_cons, beq_self_eq_true, Bool.cond_true]

lemma indexOf_cons_ne_eq (x y : String) (xs : List String) (h : x ≠ y) :
    (x :: xs).indexOf y = xs.indexOf y + 1 := by
  rw [List.indexOf_cons, beq_eq_false_iff_ne.2 h, Bool.cond_false]

lemma indexOf_filter_lt (p : String → Bool) :
    ∀ (xs : List String) (a b : String), a ∈ xs.filter p → b ∈ xs.filter p →
      (xs.filter p).indexOf a < (xs.filter p).indexOf b →
      xs.indexOf a < xs.indexOf b := by
  intro xs
  induction xs with
  | nil =>
    intro a b ha
    simp at ha
  | cons x xs ih =>
    intro a b ha hb hlt
    have hpa : p a = true := List.of_mem_filter ha
    have hpb : p b = true := List.of_mem_filter hb
    by_cases hx : p x = true
    · rw [List.filter_cons_of_pos hx] at ha hb hlt
      by_cases hax : a = x
      · subst hax
        have hba : b ≠ a := by
          intro hbe
          subst hbe
          rw [indexOf_cons_self_eq] at hlt
          exact absurd hlt (Nat.not_lt_zero _)
        rw [indexOf_cons_self_eq, indexOf_cons_ne_eq _ _ _ (Ne.symm hba)]
        exact Nat.succ_pos _
      · by_cases hbx : b = x
        · subst hbx
          rw [indexOf_cons_self_eq] at hlt
          exact absurd hlt (Nat.not_lt_zero _)
        · have ha2 : a ∈ xs.filter p := (List.mem_cons.1 ha).resolve_left hax
          have hb2 : b ∈ xs.filter p := (List.mem_cons.1 hb).resolve_left hbx
          rw [indexOf_cons_ne_eq _ _ _ (Ne.symm hax),
            indexOf_cons_ne_eq _ _ _ (Ne.symm hbx)] at hlt
          rw [indexOf_cons_ne_eq _ _ _ (Ne.symm hax),
            indexOf_cons_ne_eq _ _ _ (Ne.symm hbx)]
          exact Nat.succ_lt_succ (ih a b ha2 hb2 (Nat.lt_of_succ_lt_succ hlt))
    · rw [List.filter_cons_of_neg hx] at ha hb hlt
      have hax : x ≠ a := fun he => hx (he ▸ hpa)
      have hbx : x ≠ b := fun he => hx (he ▸ hpb)
      rw [indexOf_cons_ne_eq _ _ _ hax, indexOf_cons_ne_eq _ _ _ hbx]
      exact Nat.succ_lt_succ (ih a b ha hb hlt)

lemma unique_pairwise : ∀ l : List String,
    (unique_first_seen l).Pairwise fun a b => l.indexOf a < l.indexOf b := by
  intro l
  induction l using unique_first_seen.induct with
  | case1 => simp [unique_first_seen]
  | case2 x xs ih =>
    rw [show unique_first_seen (x :: xs)
        = x :: unique_first_seen (xs.filter fun y => decide (y ≠ x)) from by
      simp [unique_first_seen]]
    apply List.Pairwise.cons
    · intro b hb
      have hbf := (mem_unique_first_seen _ b).1 hb
      have hbne : b ≠ x := by simpa using List.of_mem_filter hbf
      rw [indexOf_cons_self_eq, indexOf_cons_ne_eq _ _ _ (Ne.symm hbne)]
      exact Nat.succ_pos _
    · refine ih.imp_of_mem ?_
      intro a b ha hb hr
      have haf := (mem_unique_first_seen _ a).1 ha
      have hbf := (mem_unique_first_seen _ b).1 hb
      have hane : a ≠ x := by simpa using List.of_mem_filter haf
      have hbne : b ≠ x := by simpa using List.of_mem_filter hbf
      have hxs : xs.indexOf a < xs.indexOf b :=
        indexOf_filter_lt _ xs a b haf hbf hr
      rw [indexOf_cons_ne_eq _ _ _ (Ne.symm hane),
        indexOf_cons_ne_eq _ _ _ (Ne.symm hbne)]
      exact Nat.succ_lt_succ hxs

/-- Claim C9: each of the three reference lists drops the missing source
values, lists every remaining value exactly once, and orders them by first
occurrence in the source column. -/
theorem load_choice_spec (sheet : ChoiceSheet) :
    DedupSpec sheet.komoditi (load_choice sheet).1
    ∧ DedupSpec sheet.tingkatan (load_choice sheet).2.1
    ∧ DedupSpec sheet.provinsi (load_choice sheet).2.2 := by
  refine ⟨?_, ?_, ?_⟩ <;>
    exact ⟨nodup_unique_first_seen _,
      fun a => mem_unique_first_seen _ a, unique_pairwise _⟩

lemma strip_data (s : String) :
    (strip s).data = ((s.data.dropWhile Char.isWhitespace).reverse.dropWhile
      Char.isWhitespace).reverse := rfl

lemma strip_split (s : String) :
    s.data.dropWhile Char.isWhitespace
      = (strip s).data
        ++ ((s.data.dropWhile Char.isWhitespace).reverse.takeWhile
              Char.isWhitespace).reverse := by
  rw [strip_data, ← List.reverse_append, List.takeWhile_append_dropWhile,
    List.reverse_reverse]

lemma strip_decomp (s : String) :
    ∃ pre post : List Char,
      (∀ c ∈ pre, c.isWhitespace = true)
      ∧ (∀ c ∈ post, c.isWhitespace = true)
      ∧ s.data = pre ++ (strip s).data ++ post := by
  refine ⟨s.data.takeWhile Char.isWhitespace,
    ((s.data.dropWhile Char.isWhitespace).reverse.takeWhile
        Char.isWhitespace).reverse, ?_, ?_, ?_⟩
  · intro c hc
    exact List.mem_takeWhile_imp hc
  · intro c hc
    rw [List.mem_reverse] at hc
    exact List.mem_takeWhile_imp hc
  · rw [List.append_assoc, ← strip_split s, List.takeWhile_append_dropWhile]

lemma strip_head (s : String) :
    ∀ c, (strip s).data.head? = some c → c.isWhitespace = false := by
  intro c hc
  have hhead : (s.data.dropWhile Char.isWhitespace).head? = some c := by
    rw [strip_split s]
    cases hsd : (strip s).data with
    | nil =>
      rw [hsd] at hc
      simp at hc
    | cons a t =>
      rw [hsd] at hc
      simp only [List.head?_cons, Option.some.injEq] at hc
      subst hc
      simp
  have hnw := List.head?_dropWhile_not Char.isWhitespace s.data
  rw [hhead] at hnw
  exact hnw

lemma strip_last (s : String) :
    ∀ c, (strip s).data.getLast? = some c → c.isWhitespace = false := by
  intro c hc
  have h2 : (strip s).data.getLast?
      = ((s.data.dropWhile Char.isWhitespace).reverse.dropWhile
          Char.isWhitespace).head? := by
    rw [strip_data, List.getLast?_reverse]
  have hnw := List.head?_dropWhile_not Char.isWhitespace
    (s.data.dropWhile Char.isWhitespace).reverse
  rw [← h2, hc] at hnw
  exact hnw

/-- Claim C10: the stored row keeps commodity, tier, province, date and
price exactly as entered, and stores the source as the free-text input
with leading and trailing whitespace removed: the input splits as
whitespace ++ stored ++ whitespace, and the stored text neither starts
nor ends with a whitespace character. -/
theorem form_row_spec (sumber_val komoditi_val tingkat_val provinsi_val : String)
    (tanggal_val : ℤ) (harga_val : ℚ) :
    (form_row sumber_val komoditi_val tingkat_val provinsi_val tanggal_val
        harga_val).komoditi = komoditi_val
    ∧ (form_row sumber_val komoditi_val tingkat_val provinsi_val tanggal_val
        harga_val).tingkat = tingkat_val
    ∧ (form_row sumber_val komoditi_val tingkat_val provinsi_val tanggal_val
        harga_val).provinsi = provinsi_val
    ∧ (form_row sumber_val komoditi_val tingkat_val provinsi_val tanggal_val
        harga_val).tanggal = tanggal_val
    ∧ (form_row sumber_val komoditi_val tingkat_val provinsi_val tanggal_val
        harga_val).harga = harga_val
    ∧ (∃ pre post : List Char,
        (∀ c ∈ pre, c.isWhitespace = true)
        ∧ (∀ c ∈ post, c.isWhitespace = true)
        ∧ sumber_val.data
            = pre ++ (form_row sumber_val komoditi_val tingkat_val
                provinsi_val tanggal_val harga_val).sumber.data ++ post)
    ∧ (∀ c, (form_row sumber_val komoditi_val tingkat_val provinsi_val
        tanggal_val harga_val).sumber.data.head? = some c →
          c.isWhitespace = false)
    ∧ ∀ c, (form_row sumber_val komoditi_val tingkat_val provinsi_val
        tanggal_val harga_val).sumber.data.getLast? = some c →
          c.isWhitespace = false :=
  ⟨rfl, rfl, rfl, rfl, rfl, strip_decomp sumber_val,
    strip_head sumber_val, strip_last sumber_val⟩

end TrenHarga
